import Mathlib

/-!
Verification of `agg` (asciinema GIF generator) event-pipeline and
rendering helpers, shallowly embedded from the Rust sources.

`f64` timestamps are modelled as `ℚ`; all values appearing in the claims
are exactly representable and no comparison is close enough to a binade
boundary for rounding to change a branch.  Rust `String` is modelled as
Lean `String` (the inputs involved are ASCII, where Rust's byte length
equals the character count).
-/

namespace Agg

/-- `type OutputEvent = (f64, String)` from src/asciicast.rs. -/
abbrev OutputEvent := ℚ × String

/-- `Result<OutputEvent>` (an `anyhow` error is modelled as its message). -/
abbrev REvent := Except String OutputEvent

/-- Wrap a plain event list as an all-`Ok` stream. -/
def okList (evs : List OutputEvent) : List REvent := evs.map Except.ok

/-! ## events.rs: `limit_idle_time` -/

/-- State-passing translation of the closure in `events::limit_idle_time`
(src/events.rs lines 74-95): state is `(prev_time, offset)`; an `Err`
item passes through without touching the state (`event.map`). -/
def limitIdleTimeAux (limit : ℚ) : ℚ → ℚ → List REvent → List REvent
  | _, _, [] => []
  | prevTime, offset, .error e :: rest =>
      .error e :: limitIdleTimeAux limit prevTime offset rest
  | prevTime, offset, .ok (time, data) :: rest =>
      let delay := time - prevTime
      let excess := delay - limit
      let offset' := if excess > 0 then offset + excess else offset
      .ok (time - offset', data) :: limitIdleTimeAux limit time offset' rest

/-- `events::limit_idle_time`: initial state `prev_time = 0.0`, `offset = 0.0`. -/
def limit_idle_time (events : List REvent) (limit : ℚ) : List REvent :=
  limitIdleTimeAux limit 0 0 events

/-- The same recursion restricted to an all-`Ok` stream (the `Err` arm of
`events::limit_idle_time` never fires on such a stream). -/
def litPure (limit : ℚ) : ℚ → ℚ → List OutputEvent → List OutputEvent
  | _, _, [] => []
  | prevTime, offset, (time, data) :: rest =>
      let delay := time - prevTime
      let excess := delay - limit
      let offset' := if excess > 0 then offset + excess else offset
      (time - offset', data) :: litPure limit time offset' rest

/-! ## events.rs: `batch`, frames.rs: `batched` -/

/-- Translation of `Batch::next` (src/events.rs lines 18-52), recursing over
the remaining input with the `prev_time`/`prev_data` state.
`!s.is_empty()` is rendered as `s ≠ ""` and `prev_time == 0.0` as `= 0`. -/
def batchAux (maxFrameTime : ℚ) : ℚ → String → List REvent → List REvent
  | prevTime, prevData, [] =>
      if prevData ≠ "" then [.ok (prevTime, prevData)] else []
  | prevTime, prevData, .error e :: rest =>
      .error e :: batchAux maxFrameTime prevTime prevData rest
  | prevTime, prevData, .ok (time, data) :: rest =>
      if time - prevTime < maxFrameTime then
        batchAux maxFrameTime prevTime (prevData ++ data) rest
      else if prevData ≠ "" ∨ prevTime = 0 then
        .ok (prevTime, prevData) :: batchAux maxFrameTime time data rest
      else
        batchAux maxFrameTime time data rest

/-- `events::batch` (src/events.rs lines 55-65): `fps_cap: u8`, initial state
`prev_time = 0.0`, `prev_data = ""`, `max_frame_time = 1.0 / fps_cap`. -/
def batch (iter : List REvent) (fps_cap : ℕ) : List REvent :=
  batchAux (1 / (fps_cap : ℚ)) 0 "" iter

/-- `type Frame = (f64, String)` from src/frames.rs. -/
abbrev Frame := ℚ × String

/-- Translation of `Batched::next` (src/frames.rs lines 18-50): the same
coalescing loop over plain frames, without the `prev_time == 0.0` disjunct
in the flush condition. -/
def batchedAux (maxFrameTime : ℚ) : ℚ → String → List Frame → List Frame
  | prevTime, prevData, [] =>
      if prevData ≠ "" then [(prevTime, prevData)] else []
  | prevTime, prevData, (time, data) :: rest =>
      if time - prevTime < maxFrameTime then
        batchedAux maxFrameTime prevTime (prevData ++ data) rest
      else if prevData ≠ "" then
        (prevTime, prevData) :: batchedAux maxFrameTime time data rest
      else
        batchedAux maxFrameTime time data rest

/-- `frames::batched` (src/frames.rs lines 53-60): `fps_cap: f64`. -/
def batched (iter : List Frame) (fps_cap : ℚ) : List Frame :=
  batchedAux (1 / fps_cap) 0 "" iter

deriving instance DecidableEq for Except

/-! ## theme.rs -/

/-- `rgb::RGB8`: channel values are `u8`, modelled as `ℕ` (every value built
below is a two-hex-digit number, hence `< 256`). -/
structure RGB8 where
  r : ℕ
  g : ℕ
  b : ℕ
deriving DecidableEq

/-- `RGB8::default()` is black. -/
instance : Inhabited RGB8 := ⟨⟨0, 0, 0⟩⟩

/-- Value of one hex digit, as accepted by `u8::from_str_radix(_, 16)`
(`char::to_digit(16)`: `0-9`, `a-f`, `A-F`). -/
def hexDigit (c : Char) : Option ℕ :=
  if '0' ≤ c ∧ c ≤ '9' then some (c.toNat - '0'.toNat)
  else if 'a' ≤ c ∧ c ≤ 'f' then some (c.toNat - 'a'.toNat + 10)
  else if 'A' ≤ c ∧ c ≤ 'F' then some (c.toNat - 'A'.toNat + 10)
  else none

/-- `u8::from_str_radix(s, 16)`: an optional leading `+` (Rust's integer
parser accepts it for unsigned types too; `-` is just an invalid digit),
then a non-empty run of hex digits; values above `u8::MAX` overflow. -/
def fromStrRadix16 (s : List Char) : Except String ℕ :=
  let digits := match s with
    | '+' :: rest => rest
    | _ => s
  if digits.isEmpty then .error "cannot parse integer from empty string"
  else
    match digits.mapM hexDigit with
    | none => .error "invalid digit found in string"
    | some ds =>
      let v := ds.foldl (fun acc d => acc * 16 + d) 0
      if v > 255 then .error "number too large to fit in target type" else .ok v

/-- Rust `str::split(sep)` on a character list (the strings concerned are
ASCII, where Rust's byte indexing coincides with character indexing). -/
def splitChar (sep : Char) : List Char → List (List Char)
  | [] => [[]]
  | c :: rest =>
      match splitChar sep rest with
      | [] => [[c]]
      | h :: t => if c = sep then [] :: h :: t else (c :: h) :: t

/-- `parse_hex_triplet` (src/theme.rs lines 13-23): exactly 6 characters,
parsed as three `u8::from_str_radix(_, 16)` pairs. -/
def parse_hex_triplet (triplet : List Char) : Except String RGB8 :=
  if triplet.length < 6 ∨ triplet.length > 6 then .error "not a hex triplet"
  else do
    let r ← fromStrRadix16 (triplet.take 2)
    let g ← fromStrRadix16 ((triplet.drop 2).take 2)
    let b ← fromStrRadix16 ((triplet.drop 4).take 2)
    .ok ⟨r, g, b⟩

/-- `theme::Theme`: background, foreground and the 16-entry palette
(`[RGB8; 16]`, modelled as a list that is always built with 16 entries). -/
structure Theme where
  background : RGB8
  foreground : RGB8
  palette : List RGB8
deriving DecidableEq

/-- `collect::<anyhow::Result<Vec<_>>>()`: the first error aborts. -/
def collectResults : List (Except String RGB8) → Except String (List RGB8)
  | [] => .ok []
  | .error e :: _ => .error e
  | .ok c :: rest =>
      match collectResults rest with
      | .error e => .error e
      | .ok cs => .ok (c :: cs)

/-- The tail of `<Theme as FromStr>::from_str` (src/theme.rs lines 37-52):
require 10 or 18 colors, then fill the 16-entry palette by cycling
`colors[2..]` (`skip(2).cycle().take(16)`). -/
def theme_from_colors (colors : List RGB8) : Except String Theme :=
  if colors.length ≠ 10 ∧ colors.length ≠ 18 then
    .error "expected 10 or 18 hex triplets"
  else
    let background := colors.getD 0 default
    let foreground := colors.getD 1 default
    let tail16 := colors.drop 2
    let palette := (List.range 16).map fun i => tail16.getD (i % tail16.length) default
    .ok ⟨background, foreground, palette⟩

/-- `<Theme as FromStr>::from_str` (src/theme.rs lines 25-54) on a character
list: split on `,`, drop empty tokens, parse each hex triplet, then build the
palette. -/
def theme_from_chars (s : List Char) : Except String Theme :=
  match collectResults (((splitChar ',' s).filter (fun t => t ≠ [])).map
      parse_hex_triplet) with
  | .error e => .error e
  | .ok colors => theme_from_colors colors

/-- `s.parse::<Theme>()`. -/
def theme_from_str (s : String) : Except String Theme := theme_from_chars s.data

/-! ## asciicast.rs / asciicast/v2.rs: embedded themes -/

/-- The variant of `asciicast::Error` exercised by the theme conversion. -/
inductive CastError
  | InvalidTheme
deriving DecidableEq

/-- The raw strings of a `V2Theme` as deserialized in src/asciicast.rs. -/
structure V2ThemeStrs where
  fg : String
  bg : String
  palette : String

/-- The `map(|s| &s[1..]).collect()` over the palette's colon-segments:
`&s[1..]` **panics** when the segment is empty (byte index 1 out of bounds),
which `collect` reaches in order; `none` models that panic, `some` the
collected vector of stripped segments. -/
def stripHashes : List (List Char) → Option (List (List Char))
  | [] => some []
  | s :: rest =>
      if s = [] then none
      else
        match stripHashes rest with
        | none => none
        | some t => some (s.drop 1 :: t)

/-- Theme part of `TryInto<Header> for V2Header` (src/asciicast.rs lines
53-84): guard on exact lengths (7 for fg/bg, 63 or 127 for the palette), strip
the leading character of each colon-separated entry, re-join with commas and
parse with `Theme::from_str`; a parse failure maps to `InvalidTheme`.
The outer `Option` models termination: `none` is the panic `&s[1..]` raises
on an empty colon-segment (reachable even for a shape-valid ASCII palette,
e.g. one of total length 63 ending in `:`), `some r` the returned `Result`.
`&bg[1..]`/`&fg[1..]` cannot panic under the length-7 guard. -/
def v2_header_theme : Option V2ThemeStrs → Option (Except CastError (Option Theme))
  | none => some (.ok none)
  | some th =>
      if th.bg.data.length = 7 ∧ th.fg.data.length = 7
          ∧ (th.palette.data.length = 63 ∨ th.palette.data.length = 127) then
        match stripHashes (splitChar ':' th.palette.data) with
        | none => none
        | some pal =>
            let joined := List.intercalate [','] pal
            let themeChars := th.bg.data.drop 1 ++ [','] ++ th.fg.data.drop 1 ++ [','] ++ joined
            match theme_from_chars themeChars with
            | .ok t => some (.ok (some t))
            | .error _ => some (.error CastError.InvalidTheme)
      else some (.error CastError.InvalidTheme)

/-- `parse_hex_color` (src/asciicast/v2.rs lines 132-142): `#rrggbb`,
exactly 7 characters. -/
def parse_hex_color (rgb : List Char) : Option RGB8 :=
  if rgb.length ≠ 7 then none
  else do
    let r ← (fromStrRadix16 ((rgb.drop 1).take 2)).toOption
    let g ← (fromStrRadix16 ((rgb.drop 3).take 2)).toOption
    let b ← (fromStrRadix16 ((rgb.drop 5).take 2)).toOption
    some ⟨r, g, b⟩

/-- `deserialize_palette` (src/asciicast/v2.rs lines 144-159): split on `:`,
keep the entries `parse_hex_color` accepts (`filter_map` silently drops the
rest), duplicate 8 entries to 16 (`extend_from_within`), reject any other
count. -/
def deserialize_palette (value : String) : Except String (List RGB8) :=
  let colors := (splitChar ':' value.data).filterMap parse_hex_color
  if colors.length = 8 then .ok (colors ++ colors)
  else if colors.length ≠ 16 then .error "expected 8 or 16 hex triplets"
  else .ok colors

/-! ## asciicast/v1.rs and asciicast.rs (v3): delta accumulation -/

/-- The `scan` in v1 `load` (src/asciicast/v1.rs lines 33-38): each event's
`time` field is a delta, accumulated into a running total. -/
def v1EventsAux : ℚ → List (ℚ × String) → List (ℚ × String)
  | _, [] => []
  | prevTime, (dt, d) :: rest =>
      let time := prevTime + dt
      (time, d) :: v1EventsAux time rest

/-- v1 events start accumulating from `0.0`. -/
def v1Events (stdout : List (ℚ × String)) : List (ℚ × String) := v1EventsAux 0 stdout

/-- `parse_event_v3` (src/asciicast.rs lines 255-280) applied down an event
stream: the first JSON field is a delta added to `prev_time`. -/
def v3EventsAux : ℚ → List (ℚ × String) → List (ℚ × String)
  | _, [] => []
  | prevTime, (delta, d) :: rest =>
      let time := prevTime + delta
      (time, d) :: v3EventsAux time rest

/-- v3 `open` installs `prev_time = 0.0`. -/
def v3Events (events : List (ℚ × String)) : List (ℚ × String) := v3EventsAux 0 events

/-! ## renderer/fontdue.rs: glyph compositing -/

/-- One channel of the glyph blend in `FontdueRenderer::render`
(src/renderer/fontdue.rs lines 297-302): `u16` arithmetic, truncating
division **by 256**, the two terms cast to `u8` separately and added.
For `bg, fg, v ≤ 255` no intermediate exceeds `u16` and the sum stays
below 255 (proved below), so plain `ℕ` arithmetic is faithful. -/
def blendChannel (bg fg v : ℕ) : ℕ := bg * (255 - v) / 256 + fg * v / 256

/-- The blend formula as the spec words it (division by 255): stated only to
be compared against `blendChannel`. -/
def specBlendChannel (bg fg v : ℕ) : ℕ := bg * (255 - v) / 255 + fg * v / 255

/-! ## renderer.rs: `text_attrs` -/

/-- `avt::Color`. -/
inductive AvtColor
  | indexed (n : ℕ)
  | rgb (c : RGB8)
deriving DecidableEq

/-- The observable state of an `avt::Pen`. -/
structure Pen where
  foreground : Option AvtColor
  background : Option AvtColor
  bold : Bool
  faint : Bool
  italic : Bool
  underline : Bool
  blink : Bool
  inverse : Bool
deriving DecidableEq

/-- `TextAttrs` (src/renderer.rs lines 31-38). -/
structure TextAttrs where
  foreground : Option AvtColor
  background : Option AvtColor
  bold : Bool
  faint : Bool
  italic : Bool
  underline : Bool
deriving DecidableEq

/-- The two identical brightening blocks of `text_attrs`: under the flag, an
indexed color `n < 8` becomes `n + 8`; anything else is untouched. -/
def brighten (flag : Bool) (c : Option AvtColor) : Option AvtColor :=
  if flag then
    match c with
    | some (.indexed n) => if n < 8 then some (.indexed (n + 8)) else c
    | _ => c
  else c

/-- `text_attrs` (src/renderer.rs lines 40-82).  `inverse` is
`cursor.map_or(false, |c| c.0 == col && c.1 == row)`; the swap happens iff
`pen.is_inverse() ^ inverse`, filling absent colors with the theme's
background/foreground. -/
def text_attrs (pen : Pen) (cursor : Option (ℕ × ℕ)) (col row : ℕ) (theme : Theme) :
    TextAttrs :=
  let inv := (cursor.map fun c => c.1 == col && c.2 == row).getD false
  let fg1 := brighten pen.bold pen.foreground
  let bg1 := brighten pen.blink pen.background
  if xor pen.inverse inv then
    { foreground := some (bg1.getD (.rgb theme.background))
      background := some (fg1.getD (.rgb theme.foreground))
      bold := pen.bold
      faint := pen.faint
      italic := pen.italic
      underline := pen.underline }
  else
    { foreground := fg1
      background := bg1
      bold := pen.bold
      faint := pen.faint
      italic := pen.italic
      underline := pen.underline }

/-! ## vt.rs: frame synthesis -/

/-- Abstract interface of the external `vt::VT` terminal emulator as used by
`vt::frames`: feeding a string yields the new state plus the list of changed
rows, and the state exposes a cursor and the rendered lines. -/
structure VTM (σ L : Type) where
  feedStr : σ → String → σ × List ℕ
  cursor : σ → Option (ℕ × ℕ)
  lines : σ → L

/-- `vt::frames` (src/vt.rs lines 3-25) as a recursion over the event list,
carrying the terminal state and `prev_cursor`. -/
def framesAux {σ L : Type} (M : VTM σ L) :
    σ → Option (ℕ × ℕ) → List Frame → List (ℚ × L × Option (ℕ × ℕ))
  | _, _, [] => []
  | s, prevCursor, (time, data) :: rest =>
      let s' := (M.feedStr s data).1
      let changed := (M.feedStr s data).2
      let c := M.cursor s'
      if changed ≠ [] ∨ c ≠ prevCursor then
        (time, M.lines s', c) :: framesAux M s' c rest
      else
        framesAux M s' c rest

/-- `vt::frames`: fresh terminal, `prev_cursor = None`. -/
def frames {σ L : Type} (M : VTM σ L) (init : σ) (stdout : List Frame) :
    List (ℚ × L × Option (ℕ × ℕ)) :=
  framesAux M init none stdout

theorem limitIdleTimeAux_okList (limit : ℚ) :
    ∀ (evs : List OutputEvent) (pt off : ℚ),
      limitIdleTimeAux limit pt off (okList evs) = okList (litPure limit pt off evs)
  | [], _, _ => rfl
  | (t, d) :: rest, pt, off => by
      simp only [okList, List.map_cons, limitIdleTimeAux, litPure]
      exact congrArg _ (limitIdleTimeAux_okList limit rest t _)

theorem litPure_map_snd (limit : ℚ) :
    ∀ (evs : List OutputEvent) (pt off : ℚ),
      (litPure limit pt off evs).map Prod.snd = evs.map Prod.snd
  | [], _, _ => rfl
  | (t, d) :: rest, pt, off => by
      simp only [litPure, List.map_cons]
      exact congrArg _ (litPure_map_snd limit rest t _)

/-- Consecutive output gaps of `limit_idle_time` are `min (input gap) limit`,
whatever the starting state. -/
theorem litPure_gap (limit : ℚ) :
    ∀ (evs : List OutputEvent) (pt off : ℚ) (i : ℕ), i + 1 < evs.length →
      ((litPure limit pt off evs).getD (i+1) (0, "")).1
          - ((litPure limit pt off evs).getD i (0, "")).1
        = min ((evs.getD (i+1) (0, "")).1 - (evs.getD i (0, "")).1) limit
  | [], _, _, _, h => by simp at h
  | [_], _, _, _, h => by simp at h
  | (t1, d1) :: (t2, d2) :: rest, pt, off, 0, _ => by
      simp only [litPure, List.getD_cons_succ, List.getD_cons_zero]
      by_cases h2 : t2 - t1 - limit > 0
      · rw [if_pos h2, min_eq_right (by linarith)]
        ring
      · rw [if_neg h2, min_eq_left (by linarith)]
        ring
  | (t1, d1) :: (t2, d2) :: rest, pt, off, (i+1), h => by
      have ih := litPure_gap limit ((t2, d2) :: rest) t1
        (if t1 - pt - limit > 0 then off + (t1 - pt - limit) else off) i
        (by simpa using h)
      simpa only [litPure, List.getD_cons_succ] using ih

/-- C1: `limit_idle_time` keeps every event's text, and maps timestamps so
that each consecutive emitted gap is `min (original gap) limit`; hence no two
consecutive emitted timestamps differ by more than `limit` and every gap
smaller than `limit` is preserved exactly.  The concrete example from the
spec (times 0, 1, 3.5, 4, 7.5 with limit 2) comes out at 0, 1, 3, 3.5, 5.5. -/
theorem limit_idle_time_claim (evs : List OutputEvent) (L : ℚ)
    (hmono : List.Chain' (fun a b : OutputEvent => a.1 ≤ b.1) evs) (hL : 0 < L) :
    limit_idle_time (okList evs) L = okList (litPure L 0 0 evs)
    ∧ (litPure L 0 0 evs).map Prod.snd = evs.map Prod.snd
    ∧ (∀ i, i + 1 < evs.length →
        ((litPure L 0 0 evs).getD (i+1) (0, "")).1 - ((litPure L 0 0 evs).getD i (0, "")).1
          = min ((evs.getD (i+1) (0, "")).1 - (evs.getD i (0, "")).1) L)
    ∧ (∀ i, i + 1 < evs.length →
        ((litPure L 0 0 evs).getD (i+1) (0, "")).1 - ((litPure L 0 0 evs).getD i (0, "")).1 ≤ L)
    ∧ (∀ i, i + 1 < evs.length →
        (evs.getD (i+1) (0, "")).1 - (evs.getD i (0, "")).1 < L →
        ((litPure L 0 0 evs).getD (i+1) (0, "")).1 - ((litPure L 0 0 evs).getD i (0, "")).1
          = (evs.getD (i+1) (0, "")).1 - (evs.getD i (0, "")).1)
    ∧ limit_idle_time (okList [(0, "foo"), (1, "bar"), (7/2, "baz"), (4, "qux"), (15/2, "quux")]) 2
        = okList [(0, "foo"), (1, "bar"), (3, "baz"), (7/2, "qux"), (11/2, "quux")] := by
  refine ⟨limitIdleTimeAux_okList L evs 0 0, litPure_map_snd L evs 0 0,
    fun i h => litPure_gap L evs 0 0 i h, fun i h => ?_, fun i h hlt => ?_, ?_⟩
  · rw [litPure_gap L evs 0 0 i h]
    exact min_le_right _ _
  · rw [litPure_gap L evs 0 0 i h]
    exact min_eq_left hlt.le
  · norm_num [limit_idle_time, limitIdleTimeAux, okList]

theorem batchAux_coalesce (maxft pt : ℚ) (pd : String) (t : ℚ) (d : String)
    (rest : List REvent) (h : t - pt < maxft) :
    batchAux maxft pt pd (.ok (t, d) :: rest) = batchAux maxft pt (pd ++ d) rest := by
  simp only [batchAux, if_pos h]

theorem batchAux_flush (maxft pt : ℚ) (pd : String) (t : ℚ) (d : String)
    (rest : List REvent) (h1 : ¬ t - pt < maxft) (h2 : pd ≠ "" ∨ pt = 0) :
    batchAux maxft pt pd (.ok (t, d) :: rest)
      = .ok (pt, pd) :: batchAux maxft t d rest := by
  simp only [batchAux, if_neg h1, if_pos h2]

theorem batchAux_skip (maxft pt : ℚ) (pd : String) (t : ℚ) (d : String)
    (rest : List REvent) (h1 : ¬ t - pt < maxft) (h2 : ¬ (pd ≠ "" ∨ pt = 0)) :
    batchAux maxft pt pd (.ok (t, d) :: rest) = batchAux maxft t d rest := by
  simp only [batchAux, if_neg h1, if_neg h2]

theorem batchAux_nil_flush (maxft pt : ℚ) (pd : String) (h : pd ≠ "") :
    batchAux maxft pt pd [] = [.ok (pt, pd)] := by
  simp only [batchAux, if_pos h]

theorem batchAux_nil_empty (maxft pt : ℚ) : batchAux maxft pt "" [] = [] := by
  simp [batchAux]

theorem batchedAux_coalesce (maxft pt : ℚ) (pd : String) (t : ℚ) (d : String)
    (rest : List Frame) (h : t - pt < maxft) :
    batchedAux maxft pt pd ((t, d) :: rest) = batchedAux maxft pt (pd ++ d) rest := by
  simp only [batchedAux, if_pos h]

theorem batchedAux_flush (maxft pt : ℚ) (pd : String) (t : ℚ) (d : String)
    (rest : List Frame) (h1 : ¬ t - pt < maxft) (h2 : pd ≠ "") :
    batchedAux maxft pt pd ((t, d) :: rest)
      = (pt, pd) :: batchedAux maxft t d rest := by
  simp only [batchedAux, if_neg h1, if_pos h2]

theorem batchedAux_skip (maxft pt : ℚ) (pd : String) (t : ℚ) (d : String)
    (rest : List Frame) (h1 : ¬ t - pt < maxft) (h2 : ¬ pd ≠ "") :
    batchedAux maxft pt pd ((t, d) :: rest) = batchedAux maxft t d rest := by
  simp only [batchedAux, if_neg h1, if_neg h2]

theorem string_append_eq_empty_left {a b : String} (h : a ++ b = "") : a = "" := by
  cases a with
  | mk la =>
    cases b with
    | mk lb =>
      have hd : la ++ lb = List.nil := congrArg String.data h
      have : la = [] := (List.append_eq_nil.mp hd).1
      simp [this]

theorem string_empty_append (d : String) : ("" : String) ++ d = d := by
  cases d with
  | mk l => rfl

/-- Any batch emitted by `events::batch` with empty accumulated text carries
timestamp 0: the mid-stream flush can emit an empty batch only through the
`prev_time == 0.0` disjunct, and the end-of-stream flush requires non-empty
text. -/
theorem batchAux_ok_empty_time (maxft : ℚ) :
    ∀ (evs : List REvent) (pt : ℚ) (pd : String) (t : ℚ),
      Except.ok (t, "") ∈ batchAux maxft pt pd evs → t = 0
  | [], pt, pd, t, h => by
      by_cases hpd : pd ≠ ""
      · rw [batchAux_nil_flush maxft pt pd hpd] at h
        simp only [List.mem_singleton, Except.ok.injEq, Prod.mk.injEq] at h
        exact absurd h.2.symm hpd
      · push_neg at hpd
        subst hpd
        rw [batchAux_nil_empty] at h
        simp at h
  | .error e :: rest, pt, pd, t, h => by
      simp only [batchAux, List.mem_cons] at h
      rcases h with h | h
      · simp at h
      · exact batchAux_ok_empty_time maxft rest pt pd t h
  | .ok (t', d) :: rest, pt, pd, t, h => by
      by_cases h1 : t' - pt < maxft
      · rw [batchAux_coalesce maxft pt pd t' d rest h1] at h
        exact batchAux_ok_empty_time maxft rest pt (pd ++ d) t h
      · by_cases h2 : pd ≠ "" ∨ pt = 0
        · rw [batchAux_flush maxft pt pd t' d rest h1 h2] at h
          rcases List.mem_cons.mp h with h | h
          · simp only [Except.ok.injEq, Prod.mk.injEq] at h
            rcases h2 with h2 | h2
            · exact absurd h.2.symm h2
            · rw [h.1, h2]
          · exact batchAux_ok_empty_time maxft rest t' d t h
        · rw [batchAux_skip maxft pt pd t' d rest h1 h2] at h
          exact batchAux_ok_empty_time maxft rest t' d t h

/-- On an all-`Ok` stream, from any state with `prev_time ≥ 0` in which an
empty pending batch implies a nonzero `prev_time`, `events::batch` and
`frames::batched` run in lock-step. -/
theorem batchAux_eq_batchedAux (maxft : ℚ) (hm : 0 < maxft) :
    ∀ (evs : List Frame) (pt : ℚ) (pd : String), 0 ≤ pt → (pd = "" → pt ≠ 0) →
      batchAux maxft pt pd (okList evs) = okList (batchedAux maxft pt pd evs)
  | [], pt, pd, _, _ => by
      by_cases hpd : pd ≠ ""
      · simp only [okList, List.map_nil, batchAux, batchedAux, if_pos hpd, List.map_cons]
      · simp only [okList, List.map_nil, batchAux, batchedAux, if_neg hpd]
  | (t, d) :: rest, pt, pd, hpt, hinv => by
      have hok : okList ((t, d) :: rest) = .ok (t, d) :: okList rest := rfl
      rw [hok]
      by_cases h1 : t - pt < maxft
      · rw [batchAux_coalesce _ _ _ _ _ _ h1, batchedAux_coalesce _ _ _ _ _ _ h1]
        exact batchAux_eq_batchedAux maxft hm rest pt (pd ++ d) hpt
          (fun he => hinv (string_append_eq_empty_left he))
      · have ht : 0 < t := by
          have h1le := not_lt.mp h1
          linarith
        by_cases h2 : pd ≠ ""
        · rw [batchAux_flush _ _ _ _ _ _ h1 (Or.inl h2), batchedAux_flush _ _ _ _ _ _ h1 h2,
            batchAux_eq_batchedAux maxft hm rest t d ht.le (fun _ => ne_of_gt ht)]
          rfl
        · push_neg at h2
          have hpt0 := hinv h2
          rw [batchAux_skip _ _ _ _ _ _ h1 (by simp [h2, hpt0]),
            batchedAux_skip _ _ _ _ _ _ h1 (by simp [h2])]
          exact batchAux_eq_batchedAux maxft hm rest t d ht.le (fun _ => ne_of_gt ht)

/-- From the initial state, `events::batch` either agrees with
`frames::batched` or prepends a single empty `Ok` batch at time 0. -/
theorem batchAux_front (maxft : ℚ) (hm : 0 < maxft) :
    ∀ evs : List Frame,
      batchAux maxft 0 "" (okList evs) = okList (batchedAux maxft 0 "" evs)
      ∨ batchAux maxft 0 "" (okList evs)
          = .ok (0, "") :: okList (batchedAux maxft 0 "" evs)
  | [] => Or.inl (by simp [batchAux, batchedAux, okList])
  | (t, d) :: rest => by
      have hok : okList ((t, d) :: rest) = .ok (t, d) :: okList rest := rfl
      rw [hok]
      by_cases h1 : t - 0 < maxft
      · rw [batchAux_coalesce _ _ _ _ _ _ h1, batchedAux_coalesce _ _ _ _ _ _ h1,
          string_empty_append]
        by_cases hd : d = ""
        · subst hd
          exact batchAux_front maxft hm rest
        · exact Or.inl (batchAux_eq_batchedAux maxft hm rest 0 d le_rfl
            (fun he => absurd he hd))
      · have ht : 0 < t := by
          have h1le := not_lt.mp h1
          linarith
        rw [batchAux_flush _ _ _ _ _ _ h1 (Or.inr rfl),
          batchedAux_skip _ _ _ _ _ _ h1 (by simp)]
        exact Or.inr (congrArg _
          (batchAux_eq_batchedAux maxft hm rest t d ht.le (fun _ => ne_of_gt ht)))

/-- Shared evaluation: the spec's fps-batch example at cap 30. -/
theorem batch_example :
    batch (okList [((0 : ℚ), "foo"), (33/1000, "bar"), (66/1000, "baz"), (1, "qux")]) 30
      = okList [((0 : ℚ), "foobar"), (66/1000, "baz"), (1, "qux")] := by
  simp only [batch, okList, List.map_cons, List.map_nil, Nat.cast_ofNat]
  rw [batchAux_coalesce (1 / (30:ℚ)) 0 "" 0 "foo" _ (by norm_num),
    batchAux_coalesce (1 / (30:ℚ)) 0 ("" ++ "foo") (33/1000) "bar" _ (by norm_num),
    batchAux_flush (1 / (30:ℚ)) 0 ("" ++ "foo" ++ "bar") (66/1000) "baz" _ (by norm_num)
      (Or.inr rfl),
    batchAux_flush (1 / (30:ℚ)) (66/1000) "baz" 1 "qux" _ (by norm_num) (Or.inl (by simp)),
    batchAux_nil_flush (1 / (30:ℚ)) 1 "qux" (by simp)]
  simp

/-- Shared evaluation: `batch` on the anchor stream `(0,""),(1,"foo"),(2,"bar")`
(the third unit test of src/events.rs) reproduces the input, empty batch included. -/
theorem batch_anchor_example :
    batch (okList [((0 : ℚ), ""), (1, "foo"), (2, "bar")]) 30
      = okList [((0 : ℚ), ""), (1, "foo"), (2, "bar")] := by
  simp only [batch, okList, List.map_cons, List.map_nil, Nat.cast_ofNat]
  rw [batchAux_coalesce (1 / (30:ℚ)) 0 "" 0 "" _ (by norm_num),
    batchAux_flush (1 / (30:ℚ)) 0 ("" ++ "") 1 "foo" _ (by norm_num) (Or.inr rfl),
    batchAux_flush (1 / (30:ℚ)) 1 "foo" 2 "bar" _ (by norm_num) (Or.inl (by simp)),
    batchAux_nil_flush (1 / (30:ℚ)) 2 "bar" (by simp)]
  simp

/-- C2: `events::batch` coalesces an event into the current batch exactly when
`time - prev_time < 1/fps_cap`; a flushed batch carries the batch's start time
and the concatenation of its events' texts; a non-empty pending batch is
flushed at stream end (an empty one is not); and the spec's concrete example
at cap 30 yields `(0,"foobar"), (0.066,"baz"), (1,"qux")`. -/
theorem batch_claim (fps_cap : ℕ) (hc : 0 < fps_cap) :
    (∀ (pt : ℚ) (pd : String) (t : ℚ) (d : String) (rest : List REvent),
        t - pt < 1 / (fps_cap : ℚ) →
        batchAux (1 / (fps_cap : ℚ)) pt pd (.ok (t, d) :: rest)
          = batchAux (1 / (fps_cap : ℚ)) pt (pd ++ d) rest)
    ∧ (∀ (pt : ℚ) (pd : String) (t : ℚ) (d : String) (rest : List REvent),
        ¬ t - pt < 1 / (fps_cap : ℚ) → (pd ≠ "" ∨ pt = 0) →
        batchAux (1 / (fps_cap : ℚ)) pt pd (.ok (t, d) :: rest)
          = .ok (pt, pd) :: batchAux (1 / (fps_cap : ℚ)) t d rest)
    ∧ (∀ (pt : ℚ) (pd : String) (t : ℚ) (d : String) (rest : List REvent),
        ¬ t - pt < 1 / (fps_cap : ℚ) → ¬ (pd ≠ "" ∨ pt = 0) →
        batchAux (1 / (fps_cap : ℚ)) pt pd (.ok (t, d) :: rest)
          = batchAux (1 / (fps_cap : ℚ)) t d rest)
    ∧ (∀ (pt : ℚ) (pd : String), pd ≠ "" →
        batchAux (1 / (fps_cap : ℚ)) pt pd [] = [.ok (pt, pd)])
    ∧ (∀ pt : ℚ, batchAux (1 / (fps_cap : ℚ)) pt "" [] = [])
    ∧ batch (okList [((0 : ℚ), "foo"), (33/1000, "bar"), (66/1000, "baz"), (1, "qux")]) 30
        = okList [((0 : ℚ), "foobar"), (66/1000, "baz"), (1, "qux")] :=
  ⟨fun pt pd t d rest h => batchAux_coalesce _ pt pd t d rest h,
    fun pt pd t d rest h1 h2 => batchAux_flush _ pt pd t d rest h1 h2,
    fun pt pd t d rest h1 h2 => batchAux_skip _ pt pd t d rest h1 h2,
    fun pt pd h => batchAux_nil_flush _ pt pd h,
    fun pt => batchAux_nil_empty _ pt,
    batch_example⟩

/-- Witness for C2 at `fps_cap = 30`. -/
theorem batch_claim_witness :
    batch (okList [((0 : ℚ), "foo"), (33/1000, "bar"), (66/1000, "baz"), (1, "qux")]) 30
      = okList [((0 : ℚ), "foobar"), (66/1000, "baz"), (1, "qux")] :=
  (batch_claim 30 (by norm_num)).2.2.2.2.2

/-- C3 counterexample: on the anchor stream `(0,""),(1,"foo"),(2,"bar")` (the
third unit test of src/events.rs), `events::batch` emits the empty-text batch
`(0,"")` as its first output item — so `batch` does emit a batch whose
accumulated text is empty. -/
theorem batch_empty_counterexample :
    batch (okList [((0 : ℚ), ""), (1, "foo"), (2, "bar")]) 30
      = okList [((0 : ℚ), ""), (1, "foo"), (2, "bar")]
    ∧ Except.ok ((0 : ℚ), "") ∈ batch (okList [((0 : ℚ), ""), (1, "foo"), (2, "bar")]) 30 := by
  refine ⟨batch_anchor_example, ?_⟩
  rw [batch_anchor_example]
  simp [okList]

/-- C3 (amended): an output item of `events::batch` can have empty text only
when its timestamp is 0 — the deliberately flushed time-0 anchor batch; an
empty-text event anywhere else is folded into the following batch. -/
theorem batch_empty_text_claim (fps_cap : ℕ) (evs : List REvent) (t : ℚ)
    (h : Except.ok (t, "") ∈ batch evs fps_cap) : t = 0 :=
  batchAux_ok_empty_time _ evs 0 "" t h

/-- Witness for the amended C3 at the anchor stream. -/
theorem batch_empty_text_claim_witness :
    Except.ok ((0 : ℚ), "") ∈ batch (okList [((0 : ℚ), ""), (1, "foo"), (2, "bar")]) 30
    ∧ (0 : ℚ) = 0 := by
  have hmem : Except.ok ((0 : ℚ), "")
      ∈ batch (okList [((0 : ℚ), ""), (1, "foo"), (2, "bar")]) 30 := by
    rw [batch_anchor_example]
    simp [okList]
  exact ⟨hmem, batch_empty_text_claim 30 _ 0 hmem⟩

/-- C10: on an all-`Ok` stream whose first event has non-empty text and a
timestamp below `1/fps_cap`, `events::batch` and `frames::batched` produce
identical outputs; in general they agree up to `events::batch` possibly
prepending one flushed empty batch at time 0. -/
theorem batch_batched_equiv (fps_cap : ℕ) (hc : 0 < fps_cap) (t0 : ℚ) (d0 : String)
    (rest : List Frame) (hd0 : d0 ≠ "") (ht0 : t0 < 1 / (fps_cap : ℚ)) :
    batch (okList ((t0, d0) :: rest)) fps_cap
      = okList (batched ((t0, d0) :: rest) (fps_cap : ℚ))
    ∧ ∀ evs : List Frame,
        batch (okList evs) fps_cap = okList (batched evs (fps_cap : ℚ))
        ∨ batch (okList evs) fps_cap
            = .ok (0, "") :: okList (batched evs (fps_cap : ℚ)) := by
  have hm : 0 < 1 / (fps_cap : ℚ) := by
    have : (0 : ℚ) < (fps_cap : ℚ) := by exact_mod_cast hc
    positivity
  constructor
  · have hok : okList ((t0, d0) :: rest) = .ok (t0, d0) :: okList rest := rfl
    simp only [batch, batched]
    rw [hok, batchAux_coalesce _ _ _ _ _ _ (by simpa using ht0),
      batchedAux_coalesce _ _ _ _ _ _ (by simpa using ht0), string_empty_append]
    exact batchAux_eq_batchedAux _ hm rest 0 d0 le_rfl (fun he => absurd he hd0)
  · intro evs
    simp only [batch, batched]
    exact batchAux_front _ hm evs

/-- Witness for C10 at a one-event stream and `fps_cap = 30`. -/
theorem batch_batched_equiv_witness :
    batch (okList [((1/100 : ℚ), "x")]) 30
      = okList (batched [((1/100 : ℚ), "x")] ((30 : ℕ) : ℚ)) :=
  (batch_batched_equiv 30 (by norm_num) (1/100) "x" [] (by simp) (by norm_num)).1

/-- Witness for C1 at the spec's concrete input. -/
theorem limit_idle_time_claim_witness :
    (litPure 2 0 0 [((0 : ℚ), "foo"), (1, "bar"), (7/2, "baz"), (4, "qux"), (15/2, "quux")]).map
        Prod.snd
      = ["foo", "bar", "baz", "qux", "quux"] := by
  have h := limit_idle_time_claim
    [((0 : ℚ), "foo"), (1, "bar"), (7/2, "baz"), (4, "qux"), (15/2, "quux")] 2
    (by norm_num [List.chain'_cons]) (by norm_num)
  exact h.2.1

/-! ## Theorems about theme.rs (C4) -/

theorem collectResults_error_mem :
    ∀ (l : List (Except String RGB8)) (e : String), Except.error e ∈ l →
      ∃ e', collectResults l = .error e'
  | [], e, h => absurd h (List.not_mem_nil _)
  | .error e0 :: _, _, _ => ⟨e0, rfl⟩
  | .ok c :: rest, e, h => by
      rcases List.mem_cons.mp h with h | h
      · exact absurd h (by simp)
      · obtain ⟨e', he'⟩ := collectResults_error_mem rest e h
        exact ⟨e', by simp [collectResults, he']⟩

theorem range16_map_getD (f : ℕ → RGB8) (i : ℕ) (hi : i < 16) :
    ((List.range 16).map f).getD i default = f i := by
  rw [List.getD_eq_getElem _ _ (by simpa using hi)]
  simp

/-- C4 (amended): `Theme::from_str` requires exactly 10 or 18 triplets (any
other count is an error, and a token `parse_hex_triplet` rejects aborts the
parse); 18 triplets round-trip into background/foreground/palette in order;
with 10 triplets the 8 ANSI colors are replicated (`palette[i] = palette[i+8]`).
Only the claim's aside that every non-hex token errors is dropped: a 6-char
token whose 2-char components carry a leading `+` is accepted (see the
counterexample). -/
theorem theme_from_str_claim :
    (∀ colors : List RGB8, colors.length ≠ 10 → colors.length ≠ 18 →
        theme_from_colors colors = .error "expected 10 or 18 hex triplets")
    ∧ (∀ (s : List Char) (e : String),
        Except.error e ∈ ((splitChar ',' s).filter (fun t => t ≠ [])).map parse_hex_triplet →
        ∃ e', theme_from_chars s = .error e')
    ∧ (∀ colors : List RGB8, colors.length = 18 →
        ∃ th, theme_from_colors colors = .ok th
          ∧ th.background = colors.getD 0 default
          ∧ th.foreground = colors.getD 1 default
          ∧ ∀ i, i < 16 → th.palette.getD i default = colors.getD (2 + i) default)
    ∧ (∀ colors : List RGB8, colors.length = 10 →
        ∃ th, theme_from_colors colors = .ok th
          ∧ th.background = colors.getD 0 default
          ∧ th.foreground = colors.getD 1 default
          ∧ (∀ i, i < 8 → th.palette.getD i default = colors.getD (2 + i) default)
          ∧ ∀ i, i < 8 → th.palette.getD (i + 8) default = th.palette.getD i default)
    ∧ theme_from_str "000000,111111,222222,333333,444444"
        = .error "expected 10 or 18 hex triplets"
    ∧ theme_from_str "bbbbbb,ffffff,000000,111111,222222,333333,444444,555555,666666,777777,888888,999999,aaaaaa,bbbbbb,cccccc,dddddd,eeeeee,ffffff"
        = .ok ⟨⟨187, 187, 187⟩, ⟨255, 255, 255⟩,
            [⟨0, 0, 0⟩, ⟨17, 17, 17⟩, ⟨34, 34, 34⟩, ⟨51, 51, 51⟩, ⟨68, 68, 68⟩,
             ⟨85, 85, 85⟩, ⟨102, 102, 102⟩, ⟨119, 119, 119⟩, ⟨136, 136, 136⟩,
             ⟨153, 153, 153⟩, ⟨170, 170, 170⟩, ⟨187, 187, 187⟩, ⟨204, 204, 204⟩,
             ⟨221, 221, 221⟩, ⟨238, 238, 238⟩, ⟨255, 255, 255⟩]⟩ := by
  refine ⟨?_, ?_, ?_, ?_, by decide, by decide⟩
  · intro colors h10 h18
    simp only [theme_from_colors, if_pos (And.intro h10 h18)]
  · intro s e hmem
    obtain ⟨e', he'⟩ := collectResults_error_mem _ e hmem
    refine ⟨e', ?_⟩
    simp only [theme_from_chars]
    rw [he']
  · intro colors h
    have hcond : ¬(colors.length ≠ 10 ∧ colors.length ≠ 18) := by omega
    refine ⟨⟨colors.getD 0 default, colors.getD 1 default,
      (List.range 16).map fun i => (colors.drop 2).getD (i % (colors.drop 2).length) default⟩,
      by simp only [theme_from_colors, if_neg hcond], rfl, rfl, ?_⟩
    intro i hi
    have hlen : (colors.drop 2).length = 16 := by simp [h]
    rw [range16_map_getD _ i hi, hlen, Nat.mod_eq_of_lt hi,
      List.getD_eq_getElem _ _ (by rw [hlen]; exact hi),
      List.getD_eq_getElem _ _ (by rw [h]; omega)]
    simp [Nat.add_comm]
  · intro colors h
    have hcond : ¬(colors.length ≠ 10 ∧ colors.length ≠ 18) := by omega
    refine ⟨⟨colors.getD 0 default, colors.getD 1 default,
      (List.range 16).map fun i => (colors.drop 2).getD (i % (colors.drop 2).length) default⟩,
      by simp only [theme_from_colors, if_neg hcond], rfl, rfl, ?_, ?_⟩
    · intro i hi
      have hlen : (colors.drop 2).length = 8 := by simp [h]
      rw [range16_map_getD _ i (by omega), hlen, Nat.mod_eq_of_lt hi,
        List.getD_eq_getElem _ _ (by rw [hlen]; exact hi),
        List.getD_eq_getElem _ _ (by rw [h]; omega)]
      simp [Nat.add_comm]
    · intro i hi
      have hlen : (colors.drop 2).length = 8 := by simp [h]
      rw [range16_map_getD _ (i + 8) (by omega), range16_map_getD _ i (by omega), hlen,
        Nat.add_mod_right]

/-- Witness for C4 at a 1-triplet list. -/
theorem theme_from_str_claim_witness :
    theme_from_colors [⟨0, 0, 0⟩] = .error "expected 10 or 18 hex triplets" :=
  theme_from_str_claim.1 [⟨0, 0, 0⟩] (by decide) (by decide)

/-- C4 counterexample: `"+1+2+3"` is not a hex triplet (it is not six hex
digits), yet `Theme::from_str` accepts it — `u8::from_str_radix` takes a
leading `+` before each two-character component — so a non-hex token does not
always produce an error. -/
theorem theme_from_str_counterexample :
    theme_from_str "+1+2+3,ffffff,000000,111111,222222,333333,444444,555555,666666,777777"
      = .ok ⟨⟨1, 2, 3⟩, ⟨255, 255, 255⟩,
          [⟨0, 0, 0⟩, ⟨17, 17, 17⟩, ⟨34, 34, 34⟩, ⟨51, 51, 51⟩, ⟨68, 68, 68⟩, ⟨85, 85, 85⟩,
           ⟨102, 102, 102⟩, ⟨119, 119, 119⟩, ⟨0, 0, 0⟩, ⟨17, 17, 17⟩, ⟨34, 34, 34⟩,
           ⟨51, 51, 51⟩, ⟨68, 68, 68⟩, ⟨85, 85, 85⟩, ⟨102, 102, 102⟩, ⟨119, 119, 119⟩]⟩ := by
  decide

/-! ## Theorems about the embedded v2 theme (C5) -/

theorem deserialize_palette_length (value : String) (l : List RGB8)
    (h : deserialize_palette value = .ok l) : l.length = 16 := by
  simp only [deserialize_palette] at h
  split_ifs at h with h8 h16
  · injection h with h'
    rw [← h']
    simp [h8]
  · injection h with h'
    rw [← h']
    omega

/-- C5 (amended): in the `TryInto<Header> for V2Header` path (asciicast.rs),
an embedded theme whose fg/bg strings are not exactly 7 characters or whose
palette string length is neither 63 nor 127 yields `InvalidTheme`; a
shape-correct palette with every colon-segment non-empty whose content fails
`Theme::from_str` also yields `InvalidTheme`, while a shape-correct palette
with an empty colon-segment makes the code panic at `&s[1..]` before any
error is returned.  Separately, `deserialize_palette` in asciicast/v2.rs
counts only the entries `parse_hex_color` accepts, so a malformed palette CAN
be silently truncated to a valid entry count (see the counterexample); its
successful output always has 16 entries. -/
theorem v2_theme_claim :
    (∀ th : V2ThemeStrs,
        ¬(th.bg.data.length = 7 ∧ th.fg.data.length = 7
            ∧ (th.palette.data.length = 63 ∨ th.palette.data.length = 127)) →
        v2_header_theme (some th) = some (.error CastError.InvalidTheme))
    ∧ (∀ th : V2ThemeStrs,
        th.bg.data.length = 7 → th.fg.data.length = 7 →
        (th.palette.data.length = 63 ∨ th.palette.data.length = 127) →
        ∀ pal, stripHashes (splitChar ':' th.palette.data) = some pal →
        ∀ e, theme_from_chars (th.bg.data.drop 1 ++ [','] ++ th.fg.data.drop 1 ++ [','] ++
            List.intercalate [','] pal) = .error e →
        v2_header_theme (some th) = some (.error CastError.InvalidTheme))
    ∧ (∀ th : V2ThemeStrs,
        th.bg.data.length = 7 → th.fg.data.length = 7 →
        (th.palette.data.length = 63 ∨ th.palette.data.length = 127) →
        stripHashes (splitChar ':' th.palette.data) = none →
        v2_header_theme (some th) = none)
    ∧ (∀ (value : String) (l : List RGB8), deserialize_palette value = .ok l → l.length = 16)
    ∧ v2_header_theme (some ⟨"#112233", "#aabbcc",
        "#000000:#111111:#222222:#333333:#44444:#555555:#666666:#777777"⟩)
        = some (.error CastError.InvalidTheme)
    ∧ v2_header_theme (some ⟨"#112233", "#aabbcc", "aaaaaaaaaaaaaaaaaaaaaaaaaaaaaaaaaaaaaaaaaaaaaaaaaaaaaaaaaaaaaa:"⟩) = none := by
  refine ⟨?_, ?_, ?_, deserialize_palette_length, by decide, by decide⟩
  · intro th hshape
    simp only [v2_header_theme, if_neg hshape]
  · intro th hbg hfg hpal pal hstrip e hparse
    simp only [v2_header_theme, if_pos (And.intro hbg (And.intro hfg hpal)), hstrip, hparse]
  · intro th hbg hfg hpal hstrip
    simp only [v2_header_theme, if_pos (And.intro hbg (And.intro hfg hpal)), hstrip]

/-- Witness for C5 at a palette of the wrong length. -/
theorem v2_theme_claim_witness :
    v2_header_theme (some ⟨"#aabbcc", "#112233", "xx"⟩)
      = some (.error CastError.InvalidTheme) :=
  v2_theme_claim.1 ⟨"#aabbcc", "#112233", "xx"⟩ (by decide)

/-- C5 counterexample: a palette string with nine colon-separated entries, one
of them (`zzz`) malformed, is *accepted* by `deserialize_palette`: the bad
entry is silently dropped by `filter_map`, the remaining 8 are padded to 16 —
refuting "a malformed palette is never silently truncated or padded to a valid
entry count". -/
theorem v2_palette_counterexample :
    deserialize_palette "#000000:#111111:#222222:#333333:#444444:#555555:#666666:#777777:zzz"
      = .ok [⟨0, 0, 0⟩, ⟨17, 17, 17⟩, ⟨34, 34, 34⟩, ⟨51, 51, 51⟩, ⟨68, 68, 68⟩,
          ⟨85, 85, 85⟩, ⟨102, 102, 102⟩, ⟨119, 119, 119⟩, ⟨0, 0, 0⟩, ⟨17, 17, 17⟩,
          ⟨34, 34, 34⟩, ⟨51, 51, 51⟩, ⟨68, 68, 68⟩, ⟨85, 85, 85⟩, ⟨102, 102, 102⟩,
          ⟨119, 119, 119⟩] := by
  decide

/-! ## Theorems about delta accumulation (C8) -/

theorem v3EventsAux_eq_v1 :
    ∀ (l : List (ℚ × String)) (pt : ℚ), v3EventsAux pt l = v1EventsAux pt l
  | [], _ => rfl
  | (dt, d) :: rest, pt => by
      simp only [v3EventsAux, v1EventsAux]
      exact congrArg _ (v3EventsAux_eq_v1 rest (pt + dt))

theorem v1EventsAux_time :
    ∀ (l : List (ℚ × String)) (pt : ℚ) (i : ℕ), i < l.length →
      ((v1EventsAux pt l).getD i (0, "")).1 = pt + ((l.take (i + 1)).map Prod.fst).sum
  | [], _, i, h => by simp at h
  | (dt, d) :: rest, pt, 0, _ => by simp [v1EventsAux]
  | (dt, d) :: rest, pt, (i + 1), h => by
      have ih := v1EventsAux_time rest (pt + dt) i (by simpa using h)
      simp only [v1EventsAux, List.getD_cons_succ, List.take_succ_cons, List.map_cons,
        List.sum_cons]
      rw [ih]
      ring

theorem v1EventsAux_chain :
    ∀ (l : List (ℚ × String)) (pt : ℚ), (∀ p ∈ l, 0 ≤ p.1) →
      List.Chain' (fun a b : ℚ × String => a.1 ≤ b.1) (v1EventsAux pt l)
  | [], _, _ => by simp [v1EventsAux]
  | (dt, d) :: rest, pt, h => by
      simp only [v1EventsAux]
      rw [List.chain'_cons']
      refine ⟨?_, v1EventsAux_chain rest (pt + dt)
        (fun p hp => h p (List.mem_cons_of_mem _ hp))⟩
      intro b hb
      cases rest with
      | nil => simp [v1EventsAux] at hb
      | cons q r2 =>
        obtain ⟨dt2, d2⟩ := q
        simp only [v1EventsAux, List.head?_cons, Option.mem_def, Option.some.injEq] at hb
        have h2 : 0 ≤ dt2 := h (dt2, d2) (by simp)
        rw [← hb]
        simp only []
        linarith

/-- C8 (amended): the v1 and v3 readers accumulate deltas themselves — the
n-th exposed timestamp is the sum of the first n input deltas — and the
exposed stream is monotonically non-decreasing *provided all deltas are
non-negative* (the readers accept negative deltas unchecked; see the
counterexample). -/
theorem reader_times_claim (deltas : List (ℚ × String))
    (hnn : ∀ p ∈ deltas, 0 ≤ p.1) :
    v3Events deltas = v1Events deltas
    ∧ List.Chain' (fun a b : ℚ × String => a.1 ≤ b.1) (v1Events deltas)
    ∧ List.Chain' (fun a b : ℚ × String => a.1 ≤ b.1) (v3Events deltas)
    ∧ (∀ i, i < deltas.length →
        ((v1Events deltas).getD i (0, "")).1 = ((deltas.take (i + 1)).map Prod.fst).sum)
    ∧ (∀ i, i < deltas.length →
        ((v3Events deltas).getD i (0, "")).1 = ((deltas.take (i + 1)).map Prod.fst).sum) := by
  have heq : v3Events deltas = v1Events deltas := v3EventsAux_eq_v1 deltas 0
  have hch := v1EventsAux_chain deltas 0 hnn
  have htime : ∀ i, i < deltas.length →
      ((v1Events deltas).getD i (0, "")).1 = ((deltas.take (i + 1)).map Prod.fst).sum := by
    intro i hi
    have := v1EventsAux_time deltas 0 i hi
    simpa [v1Events] using this
  exact ⟨heq, hch, heq ▸ hch, htime, fun i hi => heq ▸ htime i hi⟩

/-- Witness for C8 on non-negative deltas. -/
theorem reader_times_claim_witness :
    v3Events [((1 : ℚ), "a"), (2, "b")] = v1Events [((1 : ℚ), "a"), (2, "b")] :=
  (reader_times_claim [((1 : ℚ), "a"), (2, "b")] (by norm_num)).1

/-- C8 counterexample: the v1 reader accepts a negative delta and then exposes
a *decreasing* timestamp stream `1, 0` — refuting "for every recording
accepted by a format reader, the canonical stream is monotonically
non-decreasing". -/
theorem reader_monotone_counterexample :
    v1Events [((1 : ℚ), "a"), (-1, "b")] = [((1 : ℚ), "a"), (0, "b")]
    ∧ ¬ List.Chain' (fun a b : ℚ × String => a.1 ≤ b.1)
        (v1Events [((1 : ℚ), "a"), (-1, "b")]) := by
  have e : v1Events [((1 : ℚ), "a"), (-1, "b")] = [((1 : ℚ), "a"), (0, "b")] := by
    norm_num [v1Events, v1EventsAux]
  refine ⟨e, ?_⟩
  rw [e]
  simp only [List.chain'_cons, List.chain'_singleton, and_true]
  norm_num

/-! ## Theorems about the glyph blend (C7) -/

theorem blendChannel_le (bg fg v : ℕ) (hbg : bg ≤ 255) (hfg : fg ≤ 255) (hv : v ≤ 255) :
    blendChannel bg fg v ≤ 254 := by
  have h1 : bg * (255 - v) / 256 + fg * v / 256 ≤ (bg * (255 - v) + fg * v) / 256 := by
    rw [Nat.le_div_iff_mul_le (by norm_num)]
    calc (bg * (255 - v) / 256 + fg * v / 256) * 256
        = bg * (255 - v) / 256 * 256 + fg * v / 256 * 256 := by ring
      _ ≤ bg * (255 - v) + fg * v :=
          Nat.add_le_add (Nat.div_mul_le_self _ _) (Nat.div_mul_le_self _ _)
  have h2 : bg * (255 - v) + fg * v ≤ 255 * 255 := by
    calc bg * (255 - v) + fg * v ≤ 255 * (255 - v) + 255 * v :=
        Nat.add_le_add (Nat.mul_le_mul_right _ hbg) (Nat.mul_le_mul_right _ hfg)
      _ = 255 * ((255 - v) + v) := by ring
      _ = 255 * 255 := by rw [Nat.sub_add_cancel hv]
  calc blendChannel bg fg v ≤ (bg * (255 - v) + fg * v) / 256 := h1
    _ ≤ 255 * 255 / 256 := Nat.div_le_div_right h2
    _ = 254 := by norm_num

/-- C7 (amended): the compositor's per-channel blend is
`bg*(255-v)/256 + fg*v/256` (truncating division by 256, not 255): full
coverage yields `fg*255/256` — i.e. `fg - 1` for `fg ≥ 1`, not `fg` — and
zero coverage yields `bg*255/256`; the sum never exceeds 254, so the separate
`u8` casts cannot overflow. -/
theorem blend_claim (bg fg v : ℕ) (hbg : bg ≤ 255) (hfg : fg ≤ 255) (hv : v ≤ 255) :
    blendChannel bg fg v = bg * (255 - v) / 256 + fg * v / 256
    ∧ blendChannel bg fg 255 = fg * 255 / 256
    ∧ blendChannel bg fg 0 = bg * 255 / 256
    ∧ (1 ≤ fg → blendChannel bg fg 255 = fg - 1)
    ∧ (1 ≤ bg → blendChannel bg fg 0 = bg - 1)
    ∧ blendChannel bg fg v ≤ 254 := by
  refine ⟨rfl, by simp [blendChannel], by simp [blendChannel], ?_, ?_,
    blendChannel_le bg fg v hbg hfg hv⟩
  · intro h1
    simp only [blendChannel, Nat.sub_self, Nat.mul_zero, Nat.zero_div, Nat.zero_add]
    omega
  · intro h1
    simp only [blendChannel, Nat.sub_zero, Nat.mul_zero, Nat.zero_div, Nat.add_zero]
    omega

/-- Witness for C7. -/
theorem blend_claim_witness : blendChannel 200 100 50 ≤ 254 :=
  (blend_claim 200 100 50 (by norm_num) (by norm_num) (by norm_num)).2.2.2.2.2

/-- C7 counterexample: at full coverage `v = 255` with `fg = 255`, `bg = 0`,
the code writes 254 while the spec's `bg*(255-v)/255 + fg*v/255` formula gives
exactly `fg = 255` (and symmetrically at `v = 0` for the background). -/
theorem blend_counterexample :
    blendChannel 0 255 255 = 254 ∧ specBlendChannel 0 255 255 = 255
    ∧ blendChannel 255 0 0 = 254 ∧ specBlendChannel 255 0 0 = 255 := by
  decide

/-! ## Theorems about `text_attrs` (C6) -/

/-- C6: bold brightens a low (0-7) indexed foreground to its 8-15
counterpart; blink does the same for an indexed background; and
foreground/background are swapped (theme defaults filling absent colors)
exactly when `pen.is_inverse() ^ (cell position = cursor position)` — in
particular an inverse pen *at* the cursor is not swapped. -/
theorem text_attrs_claim (pen : Pen) (cursor : Option (ℕ × ℕ)) (col row : ℕ)
    (theme : Theme) (n : ℕ) :
    (pen.bold = true → pen.foreground = some (.indexed n) → n < 8 →
      xor pen.inverse ((cursor.map fun c => c.1 == col && c.2 == row).getD false) = false →
      (text_attrs pen cursor col row theme).foreground = some (.indexed (n + 8)))
    ∧ (pen.blink = true → pen.background = some (.indexed n) → n < 8 →
      xor pen.inverse ((cursor.map fun c => c.1 == col && c.2 == row).getD false) = false →
      (text_attrs pen cursor col row theme).background = some (.indexed (n + 8)))
    ∧ (xor pen.inverse ((cursor.map fun c => c.1 == col && c.2 == row).getD false) = true →
      (text_attrs pen cursor col row theme).foreground
          = some ((brighten pen.blink pen.background).getD (.rgb theme.background))
        ∧ (text_attrs pen cursor col row theme).background
          = some ((brighten pen.bold pen.foreground).getD (.rgb theme.foreground)))
    ∧ (xor pen.inverse ((cursor.map fun c => c.1 == col && c.2 == row).getD false) = false →
      (text_attrs pen cursor col row theme).foreground = brighten pen.bold pen.foreground
        ∧ (text_attrs pen cursor col row theme).background = brighten pen.blink pen.background)
    ∧ (cursor = some (col, row) → pen.inverse = true →
      (text_attrs pen cursor col row theme).foreground = brighten pen.bold pen.foreground
        ∧ (text_attrs pen cursor col row theme).background
          = brighten pen.blink pen.background) := by
  refine ⟨?_, ?_, ?_, ?_, ?_⟩
  · intro hb hf hn hx
    simp [text_attrs, hx, brighten, hb, hf, hn]
  · intro hb hf hn hx
    simp [text_attrs, hx, brighten, hb, hf, hn]
  · intro hx
    constructor <;> simp [text_attrs, hx]
  · intro hx
    constructor <;> simp [text_attrs, hx]
  · intro hc hi
    subst hc
    constructor <;> simp [text_attrs, hi]

/-- Witness for C6: a bold pen with indexed foreground 1, no cursor. -/
theorem text_attrs_claim_witness :
    (text_attrs ⟨some (.indexed 1), none, true, false, false, false, false, false⟩
        none 0 0 ⟨⟨0, 0, 0⟩, ⟨0, 0, 0⟩, []⟩).foreground
      = some (AvtColor.indexed 9) := by
  have h := (text_attrs_claim
    ⟨some (.indexed 1), none, true, false, false, false, false, false⟩
    none 0 0 ⟨⟨0, 0, 0⟩, ⟨0, 0, 0⟩, []⟩ 1).1 rfl rfl (by norm_num) (by decide)
  simpa using h

/-! ## Theorems about `vt::frames` (C9) -/

theorem framesAux_emit {σ L : Type} (M : VTM σ L) (s : σ) (pc : Option (ℕ × ℕ))
    (t : ℚ) (d : String) (rest : List Frame)
    (h : (M.feedStr s d).2 ≠ [] ∨ M.cursor (M.feedStr s d).1 ≠ pc) :
    framesAux M s pc ((t, d) :: rest)
      = (t, M.lines (M.feedStr s d).1, M.cursor (M.feedStr s d).1)
          :: framesAux M (M.feedStr s d).1 (M.cursor (M.feedStr s d).1) rest := by
  simp only [framesAux, if_pos h]

theorem framesAux_skip {σ L : Type} (M : VTM σ L) (s : σ) (pc : Option (ℕ × ℕ))
    (t : ℚ) (d : String) (rest : List Frame)
    (h1 : (M.feedStr s d).2 = []) (h2 : M.cursor (M.feedStr s d).1 = pc) :
    framesAux M s pc ((t, d) :: rest) = framesAux M (M.feedStr s d).1 pc rest := by
  have hcond : ¬((M.feedStr s d).2 ≠ [] ∨ M.cursor (M.feedStr s d).1 ≠ pc) := by
    simp [h1, h2]
  simp only [framesAux, if_neg hcond]
  rw [h2]

theorem framesAux_length_le {σ L : Type} (M : VTM σ L) :
    ∀ (evs : List Frame) (s : σ) (pc : Option (ℕ × ℕ)),
      (framesAux M s pc evs).length ≤ evs.length
  | [], _, _ => Nat.le_refl 0
  | (t, d) :: rest, s, pc => by
      simp only [framesAux]
      split_ifs with h
      · simpa using Nat.succ_le_succ (framesAux_length_le M rest _ _)
      · exact Nat.le_succ_of_le (framesAux_length_le M rest _ _)

/-- C9: `vt::frames` emits a frame for an event iff feeding its text changed
at least one row or moved the cursor (the skipped case keeps `prev_cursor`
unchanged, so the comparison stays against the last emitted frame's cursor);
the frame count never exceeds the event count; and feeding the same
no-effect text twice in a row yields at most one frame for the pair. -/
theorem frames_claim {σ L : Type} (M : VTM σ L) (init : σ) :
    (∀ stdout : List Frame, (frames M init stdout).length ≤ stdout.length)
    ∧ (∀ (s : σ) (pc : Option (ℕ × ℕ)) (t : ℚ) (d : String) (rest : List Frame),
        ((M.feedStr s d).2 ≠ [] ∨ M.cursor (M.feedStr s d).1 ≠ pc) →
        framesAux M s pc ((t, d) :: rest)
          = (t, M.lines (M.feedStr s d).1, M.cursor (M.feedStr s d).1)
              :: framesAux M (M.feedStr s d).1 (M.cursor (M.feedStr s d).1) rest)
    ∧ (∀ (s : σ) (pc : Option (ℕ × ℕ)) (t : ℚ) (d : String) (rest : List Frame),
        (M.feedStr s d).2 = [] → M.cursor (M.feedStr s d).1 = pc →
        framesAux M s pc ((t, d) :: rest) = framesAux M (M.feedStr s d).1 pc rest)
    ∧ (∀ (s : σ) (pc : Option (ℕ × ℕ)) (t1 t2 : ℚ) (d : String),
        (M.feedStr (M.feedStr s d).1 d).2 = [] →
        M.cursor (M.feedStr (M.feedStr s d).1 d).1 = M.cursor (M.feedStr s d).1 →
        (framesAux M s pc [(t1, d), (t2, d)]).length ≤ 1) := by
  refine ⟨fun stdout => framesAux_length_le M stdout init none,
    framesAux_emit M, framesAux_skip M, ?_⟩
  intro s pc t1 t2 d h1 h2
  by_cases he : (M.feedStr s d).2 ≠ [] ∨ M.cursor (M.feedStr s d).1 ≠ pc
  · rw [framesAux_emit M s pc t1 d _ he, framesAux_skip M _ _ t2 d [] h1 h2]
    simp [framesAux]
  · push_neg at he
    rw [framesAux_skip M s pc t1 d _ he.1 he.2,
      framesAux_skip M _ _ t2 d [] h1 (h2.trans he.2)]
    simp [framesAux]

/-- Witness for C9 on a trivial terminal model that never changes. -/
theorem frames_claim_witness :
    (framesAux (⟨fun s _ => (s, []), fun _ => none, fun _ => ()⟩ : VTM ℕ Unit)
        0 none [((0 : ℚ), "x"), (1, "x")]).length ≤ 1 :=
  (frames_claim (⟨fun s _ => (s, []), fun _ => none, fun _ => ()⟩ : VTM ℕ Unit)
    0).2.2.2 0 none 0 1 "x" rfl rfl

end Agg
